import Mathlib

/-!
Shallow embedding of the LoanLens session engine (src/index.js):
the chat data model, the SessionStore mutations (createNewChat, deleteChat),
the per-turn controller (sendMessage) with its completion-request
construction and SSE streaming loop, and the message-content segmenter
(MessageContent).  JavaScript strings are modelled as Lean Strings,
JSON.parse as an executable JSON reader, and the nondeterministic inputs
(generateId, timestamps, fetch outcome) as explicit parameters.
-/

/-- Data model: one chat message (src/index.js, sendMessage user/assistant
message objects). -/
structure Message where
  id : String
  role : String
  content : String
  timestamp : String
deriving Repr, DecidableEq

/-- Data model: one chat (src/index.js, createNewChat / sendMessage new chat
objects). -/
structure Chat where
  id : String
  title : String
  messages : List Message
  createdAt : String
deriving Repr, DecidableEq

/-- The React state owned by App that the session engine mutates:
chats, activeChat, inputValue, isLoading, streamingMessage. -/
structure AppState where
  chats : List Chat
  activeChat : Option String
  inputValue : String
  isLoading : Bool
  streamingMessage : String
deriving Repr, DecidableEq

/-- The settings object (src/index.js, the settings useState initial shape).
temperature and topP are real-valued sliders; they are carried through
verbatim by the engine, modelled as rationals. -/
structure Settings where
  connectionType : String
  cloudEndpoint : String
  apiKey : String
  model : String
  localEndpoint : String
  localModel : String
  temperature : Rat
  topP : Rat
  maxTokens : Nat
  streaming : Bool
  systemPrompt : String
deriving Repr, DecidableEq

/-- Characters removed by JavaScript String.prototype.trim. -/
def jsWhitespaceChar (c : Char) : Bool :=
  c = ' ' || c = '\t' || c = '\n' || c = '\r' ||
  c = Char.ofNat 11 || c = Char.ofNat 12 || c = Char.ofNat 0xA0 || c = Char.ofNat 0xFEFF

/-- JavaScript String.prototype.trim. -/
def jsTrim (s : String) : String :=
  String.mk (((s.data.dropWhile jsWhitespaceChar).reverse.dropWhile jsWhitespaceChar).reverse)

/-- Title truncation used by sendMessage on chat creation and on the first
message: inputValue.slice(0, 50) plus an ellipsis when longer than 50
(src/index.js lines 541 and 562-564). -/
def truncTitle (s : String) : String :=
  String.mk (s.data.take 50) ++ (if 50 < s.data.length then "..." else "")

/-- createNewChat (src/index.js lines 512-522): prepend a fresh empty chat
titled "New Chat", make it active, clear the input.  The random id and the
timestamp are passed in explicitly. -/
def createNewChat (st : AppState) (newId now : String) : AppState :=
  { st with
    chats := { id := newId, title := "New Chat", messages := [], createdAt := now } :: st.chats
    activeChat := some newId
    inputValue := "" }

/-- deleteChat (src/index.js lines 524-530): filter the chat out; when it was
the active chat, repoint to the first remaining chat or to null. -/
def deleteChat (st : AppState) (chatId : String) : AppState :=
  let remaining := st.chats.filter (fun c => c.id != chatId)
  { st with
    chats := remaining
    activeChat :=
      if st.activeChat = some chatId then
        match remaining with
        | [] => none
        | c :: _ => some c.id
      else st.activeChat }

/-- A create/delete operation on the store, for stating properties of
operation sequences. -/
inductive StoreOp where
  | create (newId now : String)
  | delete (chatId : String)
deriving Repr, DecidableEq

/-- Apply one store operation. -/
def applyOp (st : AppState) : StoreOp → AppState
  | .create newId now => createNewChat st newId now
  | .delete chatId => deleteChat st chatId

/-- Apply a sequence of store operations, left to right. -/
def applyOps (st : AppState) (ops : List StoreOp) : AppState :=
  ops.foldl applyOp st

/-- Boolean form of the session invariant: the active-chat pointer, if
non-null, names a chat present in the collection. -/
def activeValidB (st : AppState) : Bool :=
  match st.activeChat with
  | none => true
  | some a => st.chats.any (fun c => c.id == a)

/-- The session invariant as a proposition. -/
def ActiveValid (st : AppState) : Prop :=
  activeValidB st = true

instance : Decidable (ActiveValid st) := by
  unfold ActiveValid; infer_instance

/-- JSON values as produced by JSON.parse.  Numbers keep their source
lexeme (the engine never does arithmetic on them). -/
inductive Json where
  | null
  | bool (b : Bool)
  | num (lexeme : String)
  | str (s : String)
  | arr (elems : List Json)
  | obj (fields : List (String × Json))
deriving Repr

/-- JSON whitespace skipping (space, tab, newline, carriage return). -/
def skipWs (cs : List Char) : List Char :=
  cs.dropWhile (fun c => c = ' ' || c = '\t' || c = '\n' || c = '\r')

/-- Hex digit value, for \uXXXX escapes. -/
def hexVal (c : Char) : Option Nat :=
  if '0' ≤ c ∧ c ≤ '9' then some (c.toNat - '0'.toNat)
  else if 'a' ≤ c ∧ c ≤ 'f' then some (c.toNat - 'a'.toNat + 10)
  else if 'A' ≤ c ∧ c ≤ 'F' then some (c.toNat - 'A'.toNat + 10)
  else none

/-- Single-character JSON string escapes. -/
def escapeChar (c : Char) : Option Char :=
  if c = '"' then some '"'
  else if c = '\\' then some '\\'
  else if c = '/' then some '/'
  else if c = 'b' then some (Char.ofNat 8)
  else if c = 'f' then some (Char.ofNat 12)
  else if c = 'n' then some '\n'
  else if c = 'r' then some '\r'
  else if c = 't' then some '\t'
  else none

/-- Parse the body of a JSON string after the opening quote; returns the
decoded characters and the input following the closing quote.  Raw control
characters make the string (hence JSON.parse) fail. -/
def parseStringBody : List Char → Option (List Char × List Char)
  | [] => none
  | '"' :: rest => some ([], rest)
  | '\\' :: 'u' :: a :: b :: c :: d :: r =>
      match hexVal a, hexVal b, hexVal c, hexVal d with
      | some ha, some hb, some hc, some hd =>
          (parseStringBody r).map
            (fun p => (Char.ofNat (((ha * 16 + hb) * 16 + hc) * 16 + hd) :: p.1, p.2))
      | _, _, _, _ => none
  | '\\' :: c :: r =>
      match escapeChar c with
      | some ec => (parseStringBody r).map (fun p => (ec :: p.1, p.2))
      | none => none
  | c :: rest =>
      if c.toNat < 32 then none
      else (parseStringBody rest).map (fun p => (c :: p.1, p.2))

/-- Parse a JSON number lexeme: -? (0 | [1-9][0-9]*) frac? exp?. -/
def parseNumberLex (cs : List Char) : Option (List Char × List Char) :=
  let signAndRest : List Char × List Char :=
    match cs with
    | '-' :: t => (['-'], t)
    | _ => ([], cs)
  let sign := signAndRest.1
  let cs1 := signAndRest.2
  let intAndRest : Option (List Char × List Char) :=
    match cs1 with
    | '0' :: t => some (['0'], t)
    | c :: t =>
        if c.isDigit ∧ c ≠ '0' then
          some (c :: t.takeWhile Char.isDigit, t.dropWhile Char.isDigit)
        else none
    | [] => none
  match intAndRest with
  | none => none
  | some (ip, r1) =>
    let fracAndRest : Option (List Char × List Char) :=
      match r1 with
      | '.' :: r2 =>
          let ds := r2.takeWhile Char.isDigit
          if ds = [] then none else some ('.' :: ds, r2.dropWhile Char.isDigit)
      | _ => some ([], r1)
    match fracAndRest with
    | none => none
    | some (fp, r2) =>
      let expAndRest : Option (List Char × List Char) :=
        match r2 with
        | e :: r3 =>
            if e = 'e' ∨ e = 'E' then
              let signP : List Char × List Char :=
                match r3 with
                | '+' :: r4 => (['+'], r4)
                | '-' :: r4 => (['-'], r4)
                | _ => ([], r3)
              let ds := signP.2.takeWhile Char.isDigit
              if ds = [] then none
              else some (e :: signP.1 ++ ds, signP.2.dropWhile Char.isDigit)
            else some ([], r2)
        | [] => some ([], r2)
      match expAndRest with
      | none => none
      | some (ep, r3) => some (sign ++ ip ++ fp ++ ep, r3)

mutual

/-- Parse one JSON value (fuel-indexed recursive descent; the fuel passed by
parseJson always suffices). -/
def parseValue : Nat → List Char → Option (Json × List Char)
  | 0, _ => none
  | fuel + 1, cs =>
    match skipWs cs with
    | [] => none
    | c :: rest =>
      if c = '"' then
        (parseStringBody rest).map (fun p => (Json.str (String.mk p.1), p.2))
      else if c = '[' then
        match skipWs rest with
        | ']' :: r2 => some (Json.arr [], r2)
        | _ => (parseElems fuel rest).map (fun p => (Json.arr p.1, p.2))
      else if c = '{' then
        match skipWs rest with
        | '}' :: r2 => some (Json.obj [], r2)
        | _ => (parseMembers fuel rest).map (fun p => (Json.obj p.1, p.2))
      else if List.isPrefixOf ['t', 'r', 'u', 'e'] (c :: rest) then
        some (Json.bool true, (c :: rest).drop 4)
      else if List.isPrefixOf ['f', 'a', 'l', 's', 'e'] (c :: rest) then
        some (Json.bool false, (c :: rest).drop 5)
      else if List.isPrefixOf ['n', 'u', 'l', 'l'] (c :: rest) then
        some (Json.null, (c :: rest).drop 4)
      else
        (parseNumberLex (c :: rest)).map (fun p => (Json.num (String.mk p.1), p.2))

/-- Parse the comma-separated elements of a non-empty JSON array, up to and
including the closing bracket. -/
def parseElems : Nat → List Char → Option (List Json × List Char)
  | 0, _ => none
  | fuel + 1, cs =>
    match parseValue fuel cs with
    | none => none
    | some (v, r1) =>
      match skipWs r1 with
      | ',' :: r2 => (parseElems fuel r2).map (fun p => (v :: p.1, p.2))
      | ']' :: r2 => some ([v], r2)
      | _ => none

/-- Parse the comma-separated members of a non-empty JSON object, up to and
including the closing brace. -/
def parseMembers : Nat → List Char → Option (List (String × Json) × List Char)
  | 0, _ => none
  | fuel + 1, cs =>
    match skipWs cs with
    | '"' :: r1 =>
      match parseStringBody r1 with
      | none => none
      | some (k, r2) =>
        match skipWs r2 with
        | ':' :: r3 =>
          match parseValue fuel r3 with
          | none => none
          | some (v, r4) =>
            match skipWs r4 with
            | ',' :: r5 => (parseMembers fuel r5).map (fun p => ((String.mk k, v) :: p.1, p.2))
            | '}' :: r5 => some ([(String.mk k, v)], r5)
            | _ => none
        | _ => none
    | _ => none

end

/-- JSON.parse: parse one value and demand only whitespace remains;
none models a thrown SyntaxError. -/
def parseJson (s : String) : Option Json :=
  match parseValue (2 * s.data.length + 4) s.data with
  | some (v, rest) => if skipWs rest = [] then some v else none
  | none => none

/-- JS object property lookup on a JSON.parse result: with duplicate keys the
last binding wins. -/
def lookupField (fields : List (String × Json)) (k : String) : Option Json :=
  match fields with
  | [] => none
  | f :: rest =>
    match lookupField rest k with
    | some v => some v
    | none => if f.1 = k then some f.2 else none

/-- JS property access obj.k (none models undefined; arrays, strings and
primitives have no such data properties). -/
def jsGetField (j : Json) (k : String) : Option Json :=
  match j with
  | .obj fs => lookupField fs k
  | _ => none

/-- JS indexed access obj[n]: array element, object property with the numeric
string key, or a one-character string for string values. -/
def jsGetIndex (j : Json) (n : Nat) : Option Json :=
  match j with
  | .arr l => l.get? n
  | .obj fs => lookupField fs (toString n)
  | .str s => (s.data.get? n).map (fun c => Json.str (String.mk [c]))
  | _ => none

/-- JS truthiness of a JSON.parse result. -/
def jsTruthy (j : Json) : Bool :=
  match j with
  | .null => false
  | .bool b => b
  | .num lex =>
      !(((lex.data.takeWhile (fun c => c ≠ 'e' && c ≠ 'E')).filter Char.isDigit).all (· = '0'))
  | .str s => s ≠ ""
  | .arr _ => true
  | .obj _ => true

mutual

/-- JS string coercion of a JSON.parse result. -/
def jsToString : Json → String
  | .null => "null"
  | .bool b => cond b "true" "false"
  | .num lex => lex
  | .str s => s
  | .arr l => joinElems l
  | .obj _ => "[object Object]"

/-- JS Array.prototype.join with ",": null elements coerce to "". -/
def joinElems : List Json → String
  | [] => ""
  | [Json.null] => ""
  | [e] => jsToString e
  | Json.null :: rest => "," ++ joinElems rest
  | e :: rest => jsToString e ++ "," ++ joinElems rest

end

/-- The delta extraction parsed.choices?.[0]?.delta?.content together with
the || '' default (src/index.js line 632).  none models the TypeError thrown
by parsed.choices when parsed is null (caught by the enclosing try). -/
def extractDeltaContent (parsed : Json) : Option String :=
  match parsed with
  | .null => none
  | _ =>
    let v := (((jsGetField parsed "choices").bind (fun c => jsGetIndex c 0)).bind
      (fun c => jsGetField c "delta")).bind (fun d => jsGetField d "content")
    some (match v with
          | some j => if jsTruthy j then jsToString j else ""
          | none => "")

/-- Streaming state: the running accumulator assistantContent and the list of
setStreamingMessage emissions so far. -/
abbrev StreamState := String × List String

/-- Process one SSE line (src/index.js lines 625-639): only data:-prefixed
lines count; the [DONE] sentinel is skipped; a payload that fails JSON.parse
(or whose property access throws) is skipped; otherwise the extracted content
is appended to the accumulator and the accumulator is emitted. -/
def processLine (st : StreamState) (line : String) : StreamState :=
  if List.isPrefixOf "data: ".data line.data then
    let data := String.mk (line.data.drop 6)
    if data = "[DONE]" then st
    else
      match parseJson data with
      | none => st
      | some parsed =>
        match extractDeltaContent parsed with
        | none => st
        | some content => (st.1 ++ content, st.2 ++ [st.1 ++ content])
  else st

/-- Process a list of SSE lines in order. -/
def processLines (lines : List String) (st : StreamState) : StreamState :=
  lines.foldl processLine st

/-- JS String.prototype.split('\n') at the character level. -/
def splitOnNewline : List Char → List (List Char)
  | [] => [[]]
  | c :: rest =>
    match splitOnNewline rest with
    | [] => [[c]]
    | l :: ls => if c = '\n' then [] :: l :: ls else (c :: l) :: ls

/-- The non-blank lines of one decoded chunk:
chunk.split('\n').filter(line => line.trim() !== '') (src/index.js line 623). -/
def linesOf (chunk : String) : List String :=
  ((splitOnNewline chunk.data).map String.mk).filter (fun line => jsTrim line != "")

/-- The whole streaming read loop (src/index.js lines 618-640): each byte
chunk is decoded and line-split independently — there is no carry-over buffer
between chunks.  Returns the final assistantContent and the emissions. -/
def processStream (chunks : List String) : StreamState :=
  chunks.foldl (fun st chunk => processLines (linesOf chunk) st) ("", [])

/-- One entry of the request body's messages array. -/
structure ReqMessage where
  role : String
  content : String
deriving Repr, DecidableEq

/-- The completion request sendMessage issues (src/index.js lines 574-606):
URL, optional bearer header, and the JSON body fields. -/
structure Request where
  url : String
  authHeader : Option String
  model : String
  messages : List ReqMessage
  temperature : Rat
  topP : Rat
  maxTokens : Nat
  stream : Bool
deriving Repr, DecidableEq

/-- Build the completion request from the settings and the (already updated)
message history (src/index.js lines 574-606). -/
def buildRequest (s : Settings) (history : List ReqMessage) : Request :=
  let endpoint := if s.connectionType = "cloud" then s.cloudEndpoint else s.localEndpoint
  let model := if s.connectionType = "cloud" then s.model else s.localModel
  { url := endpoint ++ "/chat/completions"
    authHeader :=
      if s.connectionType = "cloud" ∧ s.apiKey ≠ "" then some ("Bearer " ++ s.apiKey) else none
    model := model
    messages := { role := "system", content := s.systemPrompt } :: history
    temperature := s.temperature
    topP := s.topP
    maxTokens := s.maxTokens
    stream := s.streaming }

/-- The outcome of the fetch call, supplied as an explicit parameter:
a thrown network error carrying its message, or an HTTP response with its
ok flag, status, streamed byte chunks, and (non-streaming) JSON body. -/
inductive FetchResult where
  | netError (msg : String)
  | httpResponse (ok : Bool) (status : Nat) (chunks : List String) (body : Json)
deriving Repr

/-- The message of the error thrown on a non-ok response
(src/index.js line 609). -/
def statusMessage (status : Nat) : String :=
  "API Error: " ++ toString status

/-- The content of the assistant-role message committed by the catch block
(src/index.js line 669). -/
def errorContent (msg : String) : String :=
  "⚠️ Error: " ++ msg ++ "\n\nPlease check your API settings and try again."

/-- The non-streaming extraction data.choices?.[0]?.message?.content with the
'No response received.' default (src/index.js line 643); none models the
TypeError thrown when data is null. -/
def nonStreamingContent (body : Json) : Option String :=
  match body with
  | .null => none
  | _ =>
    let v := (((jsGetField body "choices").bind (fun c => jsGetIndex c 0)).bind
      (fun c => jsGetField c "message")).bind (fun m => jsGetField m "content")
    some (match v with
          | some j => if jsTruthy j then jsToString j else "No response received."
          | none => "No response received.")

/-- chats.find(c => c.id === chatId), the first chat with the given id. -/
def findById (chats : List Chat) (cid : String) : Option Chat :=
  chats.find? (fun c => c.id == cid)

/-- Replace the first chat with the given id (the findIndex-then-assign
pattern used throughout sendMessage). -/
def replaceFirstById : List Chat → String → Chat → List Chat
  | [], _, _ => []
  | c :: rest, cid, c2 => if c.id == cid then c2 :: rest else c :: replaceFirstById rest cid c2

/-- Append the user message to a chat, setting the title from the input when
the chat had no messages yet (src/index.js lines 559-565). -/
def appendUserMessage (c : Chat) (input uid now : String) : Chat :=
  { c with
    messages := c.messages ++ [{ id := uid, role := "user", content := input, timestamp := now }]
    title := if c.messages.length = 0 then truncTitle input else c.title }

/-- The setChats(prev => ...) closures committing the assistant or error
message (src/index.js lines 653-663 and 673-683): find the chat by id and
append; when the id is absent nothing changes. -/
def appendMsgById (chats : List Chat) (cid : String) (m : Message) : List Chat :=
  match findById chats cid with
  | none => chats
  | some c => replaceFirstById chats cid { c with messages := c.messages ++ [m] }

/-- The user-message append step of sendMessage in isolation
(src/index.js lines 557-566): chatIndex = findIndex; when the index is -1 the
assignment is skipped and the collection is returned unchanged — the code
raises no error of any kind here. -/
def appendUserToChats (chats : List Chat) (chatId input uid now : String) : List Chat :=
  match findById chats chatId with
  | none => chats
  | some c => replaceFirstById chats chatId (appendUserMessage c input uid now)

/-- sendMessage (src/index.js lines 532-688), one user turn end to end.
The random ids, the timestamp and the fetch outcome are explicit parameters.
Returns the new state and the request that was issued (none when the guard
rejected the turn or the history construction threw before fetch).
The function is total: every failure of the completion call is converted into
an assistant-role error message inside the turn — no fault escapes. -/
def sendMessage (st : AppState) (settings : Settings)
    (newChatId userMsgId respMsgId now : String) (result : FetchResult) :
    AppState × Option Request :=
  if jsTrim st.inputValue = "" ∨ st.isLoading then (st, none)
  else
    let chatIdAndChats : String × List Chat × Option String :=
      match st.activeChat with
      | some cid => (cid, st.chats, st.activeChat)
      | none =>
        (newChatId,
         { id := newChatId, title := truncTitle st.inputValue,
           messages := [], createdAt := now } :: st.chats,
         some newChatId)
    let chatId := chatIdAndChats.1
    let chats0 := chatIdAndChats.2.1
    let active0 := chatIdAndChats.2.2
    match findById chats0 chatId with
    | none =>
      -- chatIndex is -1: the user-message assignment is skipped, building the
      -- history throws a TypeError inside the try, and the catch block's
      -- append also finds no chat, so the collection is committed unchanged.
      ({ chats := chats0, activeChat := active0, inputValue := "",
         isLoading := false, streamingMessage := "" }, none)
    | some c =>
      let c1 := appendUserMessage c st.inputValue userMsgId now
      let chats1 := replaceFirstById chats0 chatId c1
      let req := buildRequest settings
        (c1.messages.map (fun m => { role := m.role, content := m.content }))
      let outcome : Except String String :=
        match result with
        | .netError m => .error m
        | .httpResponse ok status chunks body =>
          if !ok then .error (statusMessage status)
          else if settings.streaming then .ok (processStream chunks).1
          else
            match nonStreamingContent body with
            | none => .error "Cannot read properties of null (reading 'choices')"
            | some content => .ok content
      let finalChats :=
        match outcome with
        | .ok content =>
          appendMsgById chats1 chatId
            { id := respMsgId, role := "assistant", content := content, timestamp := now }
        | .error m =>
          appendMsgById chats1 chatId
            { id := respMsgId, role := "assistant", content := errorContent m, timestamp := now }
      ({ chats := finalChats, activeChat := active0, inputValue := "",
         isLoading := false, streamingMessage := "" }, some req)

/-- The backtick character. -/
def btick : Char := Char.ofNat 96

/-- A word character for the regex class \w: ASCII letter, digit or
underscore. -/
def isWordChar (c : Char) : Bool :=
  c.isAlpha || c.isDigit || c = '_'

/-- One segment produced by MessageContent (src/index.js lines 73-93). -/
inductive Seg where
  | text (content : String)
  | code (language : String) (content : String)
deriving Repr, DecidableEq

/-- The triple backtick as a character list. -/
def tripleTick : List Char := [btick, btick, btick]

/-- Lazy body scan for the regex tail ([\s\S]*?) followed by the closing
fence: the characters before the first triple backtick, or none when no
closing fence exists. -/
def findClose : List Char → Option (List Char)
  | [] => none
  | c :: rest =>
    if List.isPrefixOf tripleTick (c :: rest) then some []
    else (findClose rest).map (fun b => c :: b)

/-- Result of one match of the fence regex. -/
structure FenceMatch where
  index : Nat
  lang : String
  body : String
  len : Nat
deriving Repr, DecidableEq

/-- Try to match the fence regex at the head of the input: a triple backtick,
a greedy run of word characters, a newline, the lazy body, and the closing
triple backtick. -/
def matchFenceAt (cs : List Char) : Option (String × String × Nat) :=
  if List.isPrefixOf tripleTick cs then
    let rest := cs.drop 3
    let lang := rest.takeWhile isWordChar
    let rest2 := rest.dropWhile isWordChar
    if rest2.head? = some '\n' then
      (findClose rest2.tail).map
        (fun body =>
          (String.mk lang, String.mk body, 3 + lang.length + 1 + body.length + 3))
    else none
  else none

/-- Leftmost match of the fence regex: the first position where matchFenceAt
succeeds, as the regex exec loop finds it. -/
def findFence : List Char → Option FenceMatch
  | [] => none
  | c :: rest =>
    match matchFenceAt (c :: rest) with
    | some (lang, body, len) => some { index := 0, lang := lang, body := body, len := len }
    | none =>
      (findFence rest).map
        (fun m => { index := m.index + 1, lang := m.lang, body := m.body, len := m.len })

/-- The regex exec loop of MessageContent (src/index.js lines 79-89): emit the
text before each match, then a code part whose missing language tag becomes
the token "code", and continue after the match. -/
def parseParts (fuel : Nat) (cs : List Char) : List Seg :=
  match fuel with
  | 0 => []
  | fuel' + 1 =>
    match findFence cs with
    | none => if cs.isEmpty then [] else [Seg.text (String.mk cs)]
    | some m =>
      (if 0 < m.index then [Seg.text (String.mk (cs.take m.index))] else [])
      ++ [Seg.code (if m.lang = "" then "code" else m.lang) m.body]
      ++ parseParts fuel' (cs.drop (m.index + m.len))

/-- MessageContent's segmentation (src/index.js lines 73-93): the regex loop,
the trailing-text push, and the empty-input fallback to a single text part. -/
def parseContent (content : String) : List Seg :=
  let parts := parseParts (content.data.length + 1) content.data
  if parts.isEmpty then [Seg.text content] else parts

/-- Append an assistant-role message to a chat; the title is untouched
(the setChats commits at src/index.js lines 653-663 and 673-683 spread the
chat and replace only messages). -/
def appendAssistantMessage (c : Chat) (content aid now : String) : Chat :=
  { c with
    messages := c.messages ++
      [{ id := aid, role := "assistant", content := content, timestamp := now }] }

/-- One append to a chat's message list as performed by a turn: the user
append (with the first-message title rule) or an assistant/error append. -/
inductive ChatStep where
  | user (input uid now : String)
  | assistant (content aid now : String)
deriving Repr, DecidableEq

/-- Apply one chat step. -/
def applyStep (c : Chat) : ChatStep → Chat
  | .user input uid now => appendUserMessage c input uid now
  | .assistant content aid now => appendAssistantMessage c content aid now

/-- Apply a sequence of chat steps, left to right. -/
def applySteps (c : Chat) (steps : List ChatStep) : Chat :=
  steps.foldl applyStep c

/-- Whether a character list contains a triple backtick anywhere. -/
def hasTriple : List Char → Bool
  | [] => false
  | c :: rest => List.isPrefixOf tripleTick (c :: rest) || hasTriple rest

/-- Substring test on character lists. -/
def charListContains (sub : List Char) : List Char → Bool
  | [] => List.isPrefixOf sub []
  | c :: rest => List.isPrefixOf sub (c :: rest) || charListContains sub rest

/-- Substring test on strings: sub occurs somewhere in s. -/
def strContains (s sub : String) : Bool :=
  charListContains sub.data s.data

/-- C4: if the input is empty or whitespace-only, or a turn is already in
flight, sendMessage is a no-op: the whole state (so the chat collection,
every chat's message list, and the active-chat pointer) is unchanged, and no
request is issued. -/
theorem sendMessage_guard_noop (st : AppState) (settings : Settings)
    (newChatId userMsgId respMsgId now : String) (result : FetchResult)
    (h : jsTrim st.inputValue = "" ∨ st.isLoading = true) :
    sendMessage st settings newChatId userMsgId respMsgId now result = (st, none) := by
  unfold sendMessage
  rw [if_pos (by simpa using h)]

/-- Witness for C4: a concrete in-flight state on which sendMessage returns
the state unchanged. -/
theorem sendMessage_guard_noop_witness :
    (jsTrim "hi" = "" ∨ true = true) ∧
    sendMessage
      { chats := [{ id := "c1", title := "New Chat", messages := [], createdAt := "t0" }],
        activeChat := some "c1", inputValue := "hi", isLoading := true, streamingMessage := "" }
      { connectionType := "cloud", cloudEndpoint := "e", apiKey := "", model := "m",
        localEndpoint := "l", localModel := "lm", temperature := 1, topP := 1,
        maxTokens := 512, streaming := true, systemPrompt := "sys" }
      "n1" "u1" "a1" "t1" (.netError "boom") =
      ({ chats := [{ id := "c1", title := "New Chat", messages := [], createdAt := "t0" }],
         activeChat := some "c1", inputValue := "hi", isLoading := true, streamingMessage := "" },
       none) :=
  ⟨Or.inr rfl,
   sendMessage_guard_noop _ _ "n1" "u1" "a1" "t1" (.netError "boom") (Or.inr rfl)⟩

/-- C7: the completion request is built from the settings exactly as
specified: endpoint and model selected by connectionType, the history
prefixed with exactly one system message carrying the system prompt,
temperature, top_p, max_tokens and the stream flag copied through, and the
bearer header present exactly when the connection is cloud and a non-empty
API key is configured. -/
theorem buildRequest_spec (s : Settings) (history : List ReqMessage) :
    (buildRequest s history).url =
      (if s.connectionType = "cloud" then s.cloudEndpoint else s.localEndpoint)
        ++ "/chat/completions"
    ∧ (buildRequest s history).model =
        (if s.connectionType = "cloud" then s.model else s.localModel)
    ∧ (buildRequest s history).messages =
        { role := "system", content := s.systemPrompt } :: history
    ∧ (buildRequest s history).temperature = s.temperature
    ∧ (buildRequest s history).topP = s.topP
    ∧ (buildRequest s history).maxTokens = s.maxTokens
    ∧ (buildRequest s history).stream = s.streaming
    ∧ ((∃ h, (buildRequest s history).authHeader = some h) ↔
        (s.connectionType = "cloud" ∧ s.apiKey ≠ "")) := by
  refine ⟨rfl, rfl, rfl, rfl, rfl, rfl, rfl, ?_⟩
  by_cases hc : s.connectionType = "cloud" ∧ s.apiKey ≠ "" <;>
    simp [buildRequest, hc]

/-- createNewChat preserves the active-pointer invariant. -/
theorem createNewChat_activeValid (st : AppState) (newId now : String) :
    ActiveValid (createNewChat st newId now) := by
  simp [ActiveValid, activeValidB, createNewChat]

/-- deleteChat preserves the active-pointer invariant. -/
theorem deleteChat_activeValid (st : AppState) (chatId : String)
    (h : ActiveValid st) : ActiveValid (deleteChat st chatId) := by
  obtain ⟨chats, active, inp, load, strm⟩ := st
  unfold ActiveValid activeValidB deleteChat at *
  dsimp only at *
  rcases active with _ | a
  · simp
  · by_cases heq : a = chatId
    · subst heq
      simp only [if_pos rfl]
      rcases hrem : chats.filter (fun c => c.id != a) with _ | ⟨c, tl⟩
      · rw [hrem]
        simp
      · rw [hrem]
        simp
    · have hne : ¬ (some a = some chatId) := by simpa using heq
      simp only [if_neg hne]
      rw [List.any_eq_true] at h ⊢
      obtain ⟨c, hc, hcid⟩ := h
      have hca : c.id = a := by simpa using hcid
      exact ⟨c, List.mem_filter.mpr ⟨hc, by simp [hca, heq]⟩, hcid⟩

/-- C5: under any sequence of createChat/deleteChat operations the active
pointer stays null or a valid reference; deleting the active chat repoints to
the first remaining chat (or null); deleting a non-active chat leaves the
pointer unchanged; deleting a non-existent id changes nothing. -/
theorem createDelete_active_invariant :
    (∀ (st : AppState) (ops : List StoreOp),
        ActiveValid st → ActiveValid (applyOps st ops))
    ∧ (∀ (st : AppState) (cid : String), st.activeChat = some cid →
        (deleteChat st cid).chats = st.chats.filter (fun c => c.id != cid)
        ∧ (deleteChat st cid).activeChat =
            ((st.chats.filter (fun c => c.id != cid)).head?).map (fun c => c.id))
    ∧ (∀ (st : AppState) (cid : String), st.activeChat ≠ some cid →
        (deleteChat st cid).activeChat = st.activeChat)
    ∧ (∀ (st : AppState) (cid : String), ActiveValid st →
        (∀ c ∈ st.chats, c.id ≠ cid) → deleteChat st cid = st) := by
  refine ⟨?_, ?_, ?_, ?_⟩
  · intro st ops h
    induction ops generalizing st with
    | nil => exact h
    | cons op rest ih =>
      have hstep : ActiveValid (applyOp st op) := by
        cases op with
        | create newId now => exact createNewChat_activeValid st newId now
        | delete chatId => exact deleteChat_activeValid st chatId h
      exact ih (applyOp st op) hstep
  · intro st cid hact
    refine ⟨rfl, ?_⟩
    simp only [deleteChat, hact, if_pos rfl]
    rcases hrem : st.chats.filter (fun c => c.id != cid) with _ | ⟨c, tl⟩ <;>
      rw [hrem] <;> simp
  · intro st cid hact
    simp [deleteChat, hact]
  · intro st cid hval hnone
    have hfilter : st.chats.filter (fun c => c.id != cid) = st.chats := by
      rw [List.filter_eq_self]
      intro c hc
      simpa using hnone c hc
    have hne : st.activeChat ≠ some cid := by
      intro hcontra
      unfold ActiveValid activeValidB at hval
      rw [hcontra, List.any_eq_true] at hval
      obtain ⟨c, hc, hcid⟩ := hval
      exact hnone c hc (by simpa using hcid)
    obtain ⟨chats, active, inp, load, strm⟩ := st
    simp only [deleteChat] at *
    simp [hfilter, hne]

/-- Witness for C5: a concrete create/create/delete-the-active sequence,
starting from the empty valid state, ends in a state still satisfying the
invariant. -/
theorem createDelete_active_invariant_witness :
    ActiveValid { chats := [], activeChat := none, inputValue := "",
                  isLoading := false, streamingMessage := "" }
    ∧ ActiveValid (applyOps
        { chats := [], activeChat := none, inputValue := "",
          isLoading := false, streamingMessage := "" }
        [.create "c1" "t1", .create "c2" "t2", .delete "c2"]) :=
  ⟨by decide, createDelete_active_invariant.1 _
      [.create "c1" "t1", .create "c2" "t2", .delete "c2"] (by decide)⟩

/-- head? of an append with a non-empty left part. -/
theorem head_eq_of_append {α : Type} (l ext : List α) (h : l ≠ []) :
    (l ++ ext).head? = l.head? := by
  cases l with
  | nil => exact absurd rfl h
  | cons a t => rfl

/-- Any sequence of turn appends preserves the title, the first message and
non-emptiness of a chat that already has messages. -/
theorem applySteps_preserve (T : String) (u : Message) :
    ∀ (steps : List ChatStep) (c : Chat),
      c.title = T → c.messages.head? = some u → c.messages ≠ [] →
      (applySteps c steps).title = T
      ∧ (applySteps c steps).messages.head? = some u
      ∧ (applySteps c steps).messages ≠ [] := by
  intro steps
  induction steps with
  | nil => intro c h1 h2 h3; exact ⟨h1, h2, h3⟩
  | cons s rest ih =>
    intro c h1 h2 h3
    have hstep : (applyStep c s).title = T
        ∧ (applyStep c s).messages.head? = some u
        ∧ (applyStep c s).messages ≠ [] := by
      cases s with
      | user input uid now =>
        refine ⟨?_, ?_, ?_⟩
        · have hlen : c.messages.length ≠ 0 := by
            simpa [List.length_eq_zero] using h3
          simp [applyStep, appendUserMessage, hlen, h1]
        · simpa [applyStep, appendUserMessage, head_eq_of_append _ _ h3] using h2
        · simp [applyStep, appendUserMessage]
      | assistant content aid now =>
        refine ⟨?_, ?_, ?_⟩
        · simpa [applyStep, appendAssistantMessage] using h1
        · simpa [applyStep, appendAssistantMessage, head_eq_of_append _ _ h3] using h2
        · simp [applyStep, appendAssistantMessage]
    exact ih (applyStep c s) hstep.1 hstep.2.1 hstep.2.2

/-- C6: for any chat built from an empty chat by a first user append followed
by arbitrary further appends, the title equals the truncation of the first
user message's content (at most 50 characters, ellipsis exactly when longer),
and no subsequent append ever alters it. -/
theorem chatTitle_from_first_user_message (c0 : Chat) (input uid t0 : String)
    (steps : List ChatStep) (h0 : c0.messages = []) :
    (applySteps (appendUserMessage c0 input uid t0) steps).title = truncTitle input
    ∧ (applySteps (appendUserMessage c0 input uid t0) steps).messages.head? =
        some { id := uid, role := "user", content := input, timestamp := t0 }
    ∧ (input.length ≤ 50 → truncTitle input = input)
    ∧ (50 < input.length →
        truncTitle input = String.mk (input.data.take 50) ++ "...") := by
  have h1 : (appendUserMessage c0 input uid t0).title = truncTitle input := by
    simp [appendUserMessage, h0]
  have h2 : (appendUserMessage c0 input uid t0).messages.head? =
      some { id := uid, role := "user", content := input, timestamp := t0 } := by
    simp [appendUserMessage, h0]
  have h3 : (appendUserMessage c0 input uid t0).messages ≠ [] := by
    simp [appendUserMessage]
  obtain ⟨p1, p2, _⟩ := applySteps_preserve (truncTitle input)
    { id := uid, role := "user", content := input, timestamp := t0 }
    steps (appendUserMessage c0 input uid t0) h1 h2 h3
  refine ⟨p1, p2, ?_, ?_⟩
  · intro hle
    have hnlt : ¬ 50 < input.length := by omega
    have ht : input.data.take 50 = input.data := List.take_of_length_le hle
    have hmk : truncTitle input = String.mk input.data := by
      simp [truncTitle, hnlt, ht]
    rw [hmk]
  · intro hgt
    simp [truncTitle, hgt]

/-- Witness for C6: a concrete three-step history keeps the truncated first
input as the title. -/
theorem chatTitle_from_first_user_message_witness :
    (applySteps
      (appendUserMessage
        { id := "c1", title := "New Chat", messages := [], createdAt := "t0" }
        "hello" "u1" "t1")
      [.assistant "answer" "a1" "t2", .user "more" "u2" "t3"]).title = truncTitle "hello"
    ∧ truncTitle "hello" = "hello" :=
  ⟨(chatTitle_from_first_user_message
      { id := "c1", title := "New Chat", messages := [], createdAt := "t0" }
      "hello" "u1" "t1" [.assistant "answer" "a1" "t2", .user "more" "u2" "t3"] rfl).1,
   by decide⟩

/-- The fence regex cannot match at a position that does not start with a
triple backtick. -/
theorem matchFenceAt_eq_none (cs : List Char)
    (h : List.isPrefixOf tripleTick cs = false) : matchFenceAt cs = none := by
  simp [matchFenceAt, h]

/-- On input without any triple backtick the fence regex has no match. -/
theorem findFence_eq_none (cs : List Char) (h : hasTriple cs = false) :
    findFence cs = none := by
  induction cs with
  | nil => rfl
  | cons c rest ih =>
    rw [hasTriple] at h
    rcases Bool.or_eq_false_iff.mp h with ⟨h1, h2⟩
    rw [findFence, matchFenceAt_eq_none _ h1, ih h2]
    rfl

/-- C9: on any text containing no triple backtick (so in particular no fence),
MessageContent returns exactly one segment, of type text, whose content is the
whole input; this includes the empty string. -/
theorem parseContent_no_fence (content : String)
    (h : hasTriple content.data = false) :
    parseContent content = [Seg.text content] := by
  have hf : findFence content.data = none := findFence_eq_none content.data h
  unfold parseContent parseParts
  rw [hf]
  cases hd : content.data with
  | nil => simp [hd]
  | cons c rest =>
    have hmk : String.mk (c :: rest) = content := by rw [← hd]
    simp [hmk]

/-- Witness for C9: a concrete fence-free text yields the single text
segment. -/
theorem parseContent_no_fence_witness :
    hasTriple "hello **world**".data = false
    ∧ parseContent "hello **world**" = [Seg.text "hello **world**"] :=
  ⟨by decide, parseContent_no_fence "hello **world**" (by decide)⟩

/-- A line whose payload fails JSON.parse leaves the streaming state
untouched (the catch block skips it). -/
theorem processLine_skips_malformed (m : String)
    (hbad : parseJson (String.mk (m.data.drop 6)) = none) (st : StreamState) :
    processLine st m = st := by
  unfold processLine
  split_ifs with hp
  · dsimp only
    by_cases hd : String.mk (m.data.drop 6) = "[DONE]"
    · rw [if_pos hd]
    · rw [if_neg hd, hbad]
  · rfl

/-- C2: a data: line whose payload fails JSON.parse is silently skipped and
does not abort processing — the streaming state over the whole line stream
equals the state over the same stream with the malformed line removed, so
valid lines after the malformed one still contribute. -/
theorem processLines_drop_malformed (m : String)
    (hpre : List.isPrefixOf "data: ".data m.data = true)
    (hbad : parseJson (String.mk (m.data.drop 6)) = none)
    (ls1 ls2 : List String) (st : StreamState) :
    processLines (ls1 ++ m :: ls2) st = processLines (ls1 ++ ls2) st := by
  unfold processLines
  rw [List.foldl_append, List.foldl_append, List.foldl_cons,
    processLine_skips_malformed m hbad]

/-- Witness for C2: dropping a concrete malformed line between two valid
lines leaves the final accumulator "AB" intact. -/
theorem processLines_drop_malformed_witness :
    processLines
      ["data: \x7b\"choices\":[\x7b\"delta\":\x7b\"content\":\"A\"\x7d\x7d]\x7d",
       "data: \x7bmalformed",
       "data: \x7b\"choices\":[\x7b\"delta\":\x7b\"content\":\"B\"\x7d\x7d]\x7d"] ("", []) =
    processLines
      ["data: \x7b\"choices\":[\x7b\"delta\":\x7b\"content\":\"A\"\x7d\x7d]\x7d",
       "data: \x7b\"choices\":[\x7b\"delta\":\x7b\"content\":\"B\"\x7d\x7d]\x7d"] ("", [])
    ∧ (processLines
        ["data: \x7b\"choices\":[\x7b\"delta\":\x7b\"content\":\"A\"\x7d\x7d]\x7d",
         "data: \x7b\"choices\":[\x7b\"delta\":\x7b\"content\":\"B\"\x7d\x7d]\x7d"] ("", [])).1
      = "AB" :=
  ⟨processLines_drop_malformed "data: \x7bmalformed" (by decide) rfl
      ["data: \x7b\"choices\":[\x7b\"delta\":\x7b\"content\":\"A\"\x7d\x7d]\x7d"]
      ["data: \x7b\"choices\":[\x7b\"delta\":\x7b\"content\":\"B\"\x7d\x7d]\x7d"] ("", []),
   by decide⟩

/-- C1: on the three SSE lines carrying "A", "B" and the [DONE] sentinel, the
streaming loop emits the cumulative snapshots "A" then "AB" (the sentinel
emits nothing) and the terminal accumulated value is "AB" — both when the
lines arrive as a single chunk and when processed line by line. -/
theorem streaming_accumulation_cumulative :
    processStream
      ["data: \x7b\"choices\":[\x7b\"delta\":\x7b\"content\":\"A\"\x7d\x7d]\x7d\ndata: \x7b\"choices\":[\x7b\"delta\":\x7b\"content\":\"B\"\x7d\x7d]\x7d\ndata: [DONE]\n"]
      = ("AB", ["A", "AB"])
    ∧ processLines
        ["data: \x7b\"choices\":[\x7b\"delta\":\x7b\"content\":\"A\"\x7d\x7d]\x7d",
         "data: \x7b\"choices\":[\x7b\"delta\":\x7b\"content\":\"B\"\x7d\x7d]\x7d",
         "data: [DONE]"] ("", [])
      = ("AB", ["A", "AB"]) :=
  ⟨by decide, by decide⟩

/-- C10: the reader line-splits each chunk independently with no carry-over:
splitting one data: line across two chunks loses its content (the first
fragment's payload fails JSON.parse, the second fragment lacks the data:
prefix), so this re-chunking of the same bytes ends with a different terminal
accumulator than the single-chunk processing. -/
theorem stream_chunk_split_loses_content :
    List.isPrefixOf "data: ".data
      ("data: \x7b\"choices\":[\x7b\"delta\":\x7b\"cont").data = true
    ∧ parseJson (String.mk
        (("data: \x7b\"choices\":[\x7b\"delta\":\x7b\"cont").data.drop 6)) = none
    ∧ List.isPrefixOf "data: ".data ("ent\":\"A\"\x7d\x7d]\x7d\n").data = false
    ∧ (processStream
        ["data: \x7b\"choices\":[\x7b\"delta\":\x7b\"cont" ++ "ent\":\"A\"\x7d\x7d]\x7d\n"]).1
      = "A"
    ∧ (processStream
        ["data: \x7b\"choices\":[\x7b\"delta\":\x7b\"cont", "ent\":\"A\"\x7d\x7d]\x7d\n"]).1
      = ""
    ∧ (processStream
        ["data: \x7b\"choices\":[\x7b\"delta\":\x7b\"cont", "ent\":\"A\"\x7d\x7d]\x7d\n"]).1
      ≠ (processStream
        ["data: \x7b\"choices\":[\x7b\"delta\":\x7b\"cont" ++ "ent\":\"A\"\x7d\x7d]\x7d\n"]).1 :=
  ⟨by decide, rfl, by decide, by decide, by decide, by decide⟩

/-- find? locates the distinguished chat when nothing before it matches. -/
theorem findById_append (pre : List Chat) (c : Chat) (post : List Chat)
    (cid : String) (hpre : ∀ x ∈ pre, x.id ≠ cid) (hc : c.id = cid) :
    findById (pre ++ c :: post) cid = some c := by
  induction pre with
  | nil =>
    simp [findById, List.find?_cons_of_pos, hc]
  | cons x xs ih =>
    have hx : x.id ≠ cid := hpre x (List.mem_cons_self x xs)
    have ihx : findById (xs ++ c :: post) cid = some c :=
      ih (fun y hy => hpre y (List.mem_cons_of_mem x hy))
    simpa [findById, List.find?_cons_of_neg, hx] using ihx

/-- Replacing by id rewrites exactly the distinguished chat when nothing
before it matches. -/
theorem replaceFirstById_append (pre : List Chat) (c : Chat) (post : List Chat)
    (cid : String) (c2 : Chat) (hpre : ∀ x ∈ pre, x.id ≠ cid) (hc : c.id = cid) :
    replaceFirstById (pre ++ c :: post) cid c2 = pre ++ c2 :: post := by
  induction pre with
  | nil => simp [replaceFirstById, hc]
  | cons x xs ih =>
    have hx : x.id ≠ cid := hpre x (List.mem_cons_self x xs)
    have ihx := ih (fun y hy => hpre y (List.mem_cons_of_mem x hy))
    simp [replaceFirstById, hx, ihx]

/-- The empty pattern is contained in every character list. -/
theorem charListContains_nil (l : List Char) : charListContains [] l = true := by
  induction l with
  | nil => rfl
  | cons c rest ih => simp [charListContains, ih]

/-- A pattern occurring as a middle factor is found by charListContains. -/
theorem charListContains_middle (sub pre post : List Char) :
    charListContains sub (pre ++ (sub ++ post)) = true := by
  induction pre with
  | nil =>
    cases sub with
    | nil => simpa using charListContains_nil post
    | cons s ss =>
      have hp : List.isPrefixOf (s :: ss) ((s :: ss) ++ post) = true :=
        List.isPrefixOf_iff_prefix.mpr (List.prefix_append (s :: ss) post)
      simp only [List.nil_append]
      rw [show (s :: ss) ++ post = s :: (ss ++ post) from rfl]
      rw [charListContains]
      rw [show s :: (ss ++ post) = (s :: ss) ++ post from rfl, hp]
      simp
  | cons p ps ih =>
    rw [List.cons_append, charListContains, ih]
    simp

/-- Every error commit contains the literal substring "Error". -/
theorem errorContent_contains_error (m : String) :
    strContains (errorContent m) "Error" = true := by
  unfold strContains errorContent
  rw [String.data_append, String.data_append]
  rw [show ("⚠️ Error: " : String).data
      = "⚠️ ".data ++ ("Error".data ++ ": ".data) from by decide]
  simp only [List.append_assoc]
  exact charListContains_middle "Error".data "⚠️ ".data _

/-- The error commit for a non-ok response contains the status rendered by
the thrown message. -/
theorem errorContent_contains_status (status : Nat) :
    strContains (errorContent (statusMessage status)) (toString status) = true := by
  unfold strContains errorContent statusMessage
  rw [String.data_append, String.data_append, String.data_append]
  simp only [List.append_assoc]
  rw [← List.append_assoc]
  exact charListContains_middle (toString status).data _ _

/-- C3: a turn whose completion request fails with an HTTP error (for
instance status 500) commits exactly one new assistant-role message whose
content contains the literal substring "Error" and the status, immediately
after the user message appended for that turn; the active pointer is
untouched.  sendMessage is a total function, so the fault cannot escape the
controller boundary. -/
theorem sendMessage_apiError_error_message
    (st : AppState) (settings : Settings)
    (pre post : List Chat) (c : Chat) (cid newChatId uid aid now : String)
    (status : Nat) (chunks : List String) (body : Json)
    (hchats : st.chats = pre ++ c :: post)
    (hpre : ∀ x ∈ pre, x.id ≠ cid)
    (hc : c.id = cid)
    (hactive : st.activeChat = some cid)
    (hinput : ¬ jsTrim st.inputValue = "")
    (hload : st.isLoading = false) :
    ((sendMessage st settings newChatId uid aid now
        (.httpResponse false status chunks body)).1.chats =
      pre ++ { c with
          title := if c.messages.length = 0 then truncTitle st.inputValue else c.title
          messages := c.messages ++
            [{ id := uid, role := "user", content := st.inputValue, timestamp := now },
             { id := aid, role := "assistant",
               content := errorContent (statusMessage status), timestamp := now }] } :: post)
    ∧ (sendMessage st settings newChatId uid aid now
        (.httpResponse false status chunks body)).1.activeChat = st.activeChat
    ∧ strContains (errorContent (statusMessage status)) "Error" = true
    ∧ strContains (errorContent (statusMessage status)) (toString status) = true := by
  have hguard : ¬ (jsTrim st.inputValue = "" ∨ st.isLoading = true) := by
    rintro (h | h)
    · exact hinput h
    · rw [hload] at h
      exact Bool.false_ne_true h
  have hfind : findById st.chats cid = some c := by
    rw [hchats]
    exact findById_append pre c post cid hpre hc
  have hrep : replaceFirstById st.chats cid (appendUserMessage c st.inputValue uid now)
      = pre ++ appendUserMessage c st.inputValue uid now :: post := by
    rw [hchats]
    exact replaceFirstById_append pre c post cid _ hpre hc
  have hid1 : (appendUserMessage c st.inputValue uid now).id = cid := hc
  have hfind2 : findById (pre ++ appendUserMessage c st.inputValue uid now :: post) cid
      = some (appendUserMessage c st.inputValue uid now) :=
    findById_append pre _ post cid hpre hid1
  refine ⟨?_, ?_, errorContent_contains_error _, errorContent_contains_status status⟩
  · simp only [sendMessage, if_neg hguard, hactive, hfind, hrep, appendMsgById, hfind2]
    simp [appendUserMessage, List.append_assoc]
    exact replaceFirstById_append pre _ post cid _ hpre hc
  · simp only [sendMessage, if_neg hguard, hactive, hfind, hrep, appendMsgById, hfind2]

/-- Witness for C3: a concrete failing turn (status 500) on a one-chat state
leaves the user message followed by exactly one assistant error message. -/
theorem sendMessage_apiError_error_message_witness :
    (sendMessage
      { chats := [{ id := "c1", title := "New Chat", messages := [], createdAt := "t0" }],
        activeChat := some "c1", inputValue := "hello", isLoading := false,
        streamingMessage := "" }
      { connectionType := "cloud", cloudEndpoint := "e", apiKey := "k", model := "m",
        localEndpoint := "l", localModel := "lm", temperature := 1, topP := 1,
        maxTokens := 512, streaming := true, systemPrompt := "sys" }
      "n1" "u1" "a1" "t1" (.httpResponse false 500 [] Json.null)).1.chats =
    [{ id := "c1", title := truncTitle "hello",
       messages :=
         [{ id := "u1", role := "user", content := "hello", timestamp := "t1" },
          { id := "a1", role := "assistant",
            content := errorContent (statusMessage 500), timestamp := "t1" }],
       createdAt := "t0" }] := by
  have h := sendMessage_apiError_error_message
    { chats := [{ id := "c1", title := "New Chat", messages := [], createdAt := "t0" }],
      activeChat := some "c1", inputValue := "hello", isLoading := false,
      streamingMessage := "" }
    { connectionType := "cloud", cloudEndpoint := "e", apiKey := "k", model := "m",
      localEndpoint := "l", localModel := "lm", temperature := 1, topP := 1,
      maxTokens := 512, streaming := true, systemPrompt := "sys" }
    [] [] { id := "c1", title := "New Chat", messages := [], createdAt := "t0" }
    "c1" "n1" "u1" "a1" "t1" 500 [] Json.null
    rfl (by simp) rfl rfl (by decide) rfl
  simpa using h.1

/-- C8 counterexample: on a collection without the requested chatId the
append step returns normally with the collection unchanged — it is a silent
no-op, not a NotFoundError failure (the source defines no such error). -/
theorem appendUser_missing_id_counterexample :
    appendUserToChats
      [{ id := "c1", title := "New Chat", messages := [], createdAt := "t0" }]
      "missing" "hello" "u1" "t1"
      = [{ id := "c1", title := "New Chat", messages := [], createdAt := "t0" }] := by
  decide

/-- C8 amended: for every chatId matching no chat, the append-message step of
sendMessage leaves the chat collection unchanged and raises no error. -/
theorem appendUser_missing_id_noop (chats : List Chat) (cid input uid now : String)
    (h : ∀ c ∈ chats, c.id ≠ cid) :
    appendUserToChats chats cid input uid now = chats := by
  have hfind : findById chats cid = none := by
    unfold findById
    rw [List.find?_eq_none]
    intro x hx
    simpa using h x hx
  unfold appendUserToChats
  rw [hfind]

/-- Witness for the amended C8: a concrete missing id leaves a concrete
two-chat collection untouched. -/
theorem appendUser_missing_id_noop_witness :
    appendUserToChats
      [{ id := "a", title := "New Chat", messages := [], createdAt := "t0" },
       { id := "b", title := "New Chat", messages := [], createdAt := "t1" }]
      "zz" "question" "u9" "t9"
      = [{ id := "a", title := "New Chat", messages := [], createdAt := "t0" },
         { id := "b", title := "New Chat", messages := [], createdAt := "t1" }] :=
  appendUser_missing_id_noop _ "zz" "question" "u9" "t9" (by decide)

/-- Witness for C7: the system prefix on a concrete history, by the request
construction theorem. -/
theorem buildRequest_spec_witness :
    (buildRequest
      { connectionType := "cloud", cloudEndpoint := "https://api.example.com/v1",
        apiKey := "sk-1", model := "gpt-4", localEndpoint := "http://localhost:11434/v1",
        localModel := "llama2", temperature := 1, topP := 1, maxTokens := 2048,
        streaming := true, systemPrompt := "sys" }
      [{ role := "user", content := "hi" }]).messages =
    { role := "system", content := "sys" } :: [{ role := "user", content := "hi" }] :=
  (buildRequest_spec
    { connectionType := "cloud", cloudEndpoint := "https://api.example.com/v1",
      apiKey := "sk-1", model := "gpt-4", localEndpoint := "http://localhost:11434/v1",
      localModel := "llama2", temperature := 1, topP := 1, maxTokens := 2048,
      streaming := true, systemPrompt := "sys" }
    [{ role := "user", content := "hi" }]).2.2.1
